import Mathlib

/-!
Verification development for the serverless-webpack-prisma build plugin
(source: src/index.ts). The plugin's orchestration core is shallowly
embedded below: configuration resolution, the function selector, the
package-script manager, the tool lifecycle manager, the schema
materializer, the engine pruner and the orchestrator entry point are
translated into executable Lean definitions, and the behavioural claims
about them are settled as theorems.
-/

/-! ## JSON values

The plugin manipulates parsed `package.json` manifests and the host
framework hands it function definitions as plain objects, so we embed a
JSON value type. Object fields are an ordered association list, matching
the insertion-ordered property tables of the JavaScript runtime. -/

inductive Json where
  | null
  | bool (b : Bool)
  | num (n : Int)
  | str (s : String)
  | arr (elems : List Json)
  | obj (fields : List (String × Json))
deriving BEq, Repr

/-- Property lookup on an object field list: first binding wins,
matching JavaScript property access. -/
def lookupField : List (String × Json) → String → Option Json
  | [], _ => none
  | (k, v) :: rest, key => if k = key then some v else lookupField rest key

/-- Property assignment on an object field list: an existing key keeps
its position and gets the new value, a new key is appended at the end,
matching JavaScript property assignment order semantics. -/
def objSet : List (String × Json) → String → Json → List (String × Json)
  | [], key, v => [(key, v)]
  | (k, w) :: rest, key, v =>
    if k = key then (k, v) :: rest else (k, w) :: objSet rest key v

/-- Property deletion on an object field list, preserving the order of
the remaining bindings (JavaScript delete). -/
def objErase : List (String × Json) → String → List (String × Json)
  | [], _ => []
  | (k, w) :: rest, key =>
    if k = key then objErase rest key else (k, w) :: objErase rest key

/-- Path traversal used by the lodash get utility: follow object keys,
returning none as soon as a key is missing or the current value is not
an object. -/
def jsonGetPath : Json → List String → Option Json
  | j, [] => some j
  | .obj fields, key :: rest =>
    match lookupField fields key with
    | some v => jsonGetPath v rest
    | none => none
  | _, _ :: _ => none

/-- Lodash get with a string default. A present non-string value is
mapped to the default as well: the callers below only ever feed the
result to a substring match, and the configurations exercised by the
plugin carry strings at these paths. -/
def getStrAt (j : Json) (path : List String) (dflt : String) : String :=
  match jsonGetPath j path with
  | some (.str s) => s
  | _ => dflt

/-- Lodash set restricted to a two-segment path, as used by
managePackageScripts with the path scripts.prisma:generate. An
intermediate value that is not an object is replaced by a fresh object,
and a non-object root is returned unchanged, both faithful to lodash. -/
def jsonSet2 (j : Json) (k1 k2 : String) (v : Json) : Json :=
  match j with
  | .obj fields =>
    let inner :=
      match lookupField fields k1 with
      | some (.obj innerFields) => innerFields
      | _ => []
    .obj (objSet fields k1 (.obj (objSet inner k2 v)))
  | other => other

/-- Lodash unset restricted to a two-segment path. When the parent value
is missing or not an object the call is a no-op, faithful to lodash. -/
def jsonUnset2 (j : Json) (k1 k2 : String) : Json :=
  match j with
  | .obj fields =>
    match lookupField fields k1 with
    | some (.obj inner) => .obj (objSet fields k1 (.obj (objErase inner k2)))
    | _ => .obj fields
  | other => other

/-! ## JSON serialization

JSON.stringify with a numeric indent argument, as invoked by
managePackageScripts with indent 2. -/

/-- Escapes quotes and backslashes; other escape-needing characters do
not occur in this development. -/
def jsonEscape (s : String) : String :=
  String.mk (s.data.flatMap fun c =>
    if c == '"' || c == '\\' then ['\\', c] else [c])

def indentOf (n : Nat) : String :=
  String.mk (List.replicate n ' ')

mutual

/-- Renders a JSON value at a given indent width and nesting level,
mirroring JSON.stringify(value, null, width). -/
def renderJson (width level : Nat) : Json → String
  | .null => "null"
  | .bool b => if b then "true" else "false"
  | .num n => toString n
  | .str s => "\"" ++ jsonEscape s ++ "\""
  | .arr [] => "[]"
  | .arr (e :: es) =>
    "[\n" ++ String.intercalate ",\n" (renderElems width (level + 1) (e :: es))
      ++ "\n" ++ indentOf (width * level) ++ "]"
  | .obj [] => "\x7b\x7d"
  | .obj (f :: fs) =>
    "\x7b\n" ++ String.intercalate ",\n" (renderFields width (level + 1) (f :: fs))
      ++ "\n" ++ indentOf (width * level) ++ "\x7d"

def renderElems (width level : Nat) : List Json → List String
  | [] => []
  | j :: rest =>
    (indentOf (width * level) ++ renderJson width level j) :: renderElems width level rest

def renderFields (width level : Nat) : List (String × Json) → List String
  | [] => []
  | (k, v) :: rest =>
    (indentOf (width * level) ++ "\"" ++ jsonEscape k ++ "\": " ++ renderJson width level v)
      :: renderFields width level rest

end

/-- JSON.stringify(value, null, width). -/
def jsonStringify (width : Nat) (j : Json) : String :=
  renderJson width 0 j

/-! ## Plugin configuration

The user-supplied service descriptor, as read by the accessor methods of
the plugin. Every field is optional; each accessor resolves its own
default, mirroring the lodash get calls in the source. The data-proxy
toggle appears in the documented configuration surface but is read by no
code path. -/

structure Config where
  /-- service.provider.architecture -/
  architecture : Option String := none
  /-- service.custom.webpack.packager -/
  packager : Option String := none
  /-- service.custom.prisma.version -/
  prismaVersion : Option String := none
  /-- service.custom.prisma.installDeps -/
  installDeps : Option Bool := none
  /-- service.custom.prisma.useSymLinkForPrisma -/
  useSymLinkForPrisma : Option Bool := none
  /-- data-proxy toggle of the documented configuration surface; no
  accessor in the source reads it. -/
  dataProxy : Bool := false
  /-- service.custom.prisma.ignoreFunctions -/
  ignoreFunctions : Option (List String) := none
  /-- service.custom.prisma.prismaPath -/
  prismaPath : Option String := none
  /-- service.custom.webpack.webpackOutputPath -/
  webpackOutputPath : Option String := none
  /-- service.provider.runtime -/
  providerRuntime : Option String := none
  /-- service.package.individually -/
  packageIndividually : Option Bool := none
  /-- serverless.config.servicePath -/
  servicePath : String := ""
  /-- the function registry: getAllFunctions enumerates the names,
  getFunction looks a definition up by name. -/
  functions : List (String × Json) := []

/-- Architecture Mapping returned by getArchitectures, embedded as an
ordered association list. -/
def getArchitectures : List (String × String) :=
  [("arm64", "linux-arm64"), ("x86_64", "rhel")]

def lookupArch : List (String × String) → String → Option String
  | [], _ => none
  | (k, v) :: rest, key => if k = key then some v else lookupArch rest key

def getArchitecture (cfg : Config) : String :=
  cfg.architecture.getD "x86_64"

def getPackageManager (cfg : Config) : String :=
  cfg.packager.getD "npm"

def getPrismaVersion (cfg : Config) : String :=
  cfg.prismaVersion.getD ""

def getInstallDeps (cfg : Config) : Bool :=
  cfg.installDeps.getD true

def getUseSymlink (cfg : Config) : Bool :=
  cfg.useSymLinkForPrisma.getD false

def getIgnoredFunctions (cfg : Config) : List String :=
  cfg.ignoreFunctions.getD []

def getPrismaPath (cfg : Config) : String :=
  cfg.prismaPath.getD cfg.servicePath

def getWebpackOutputPath (cfg : Config) : String :=
  cfg.webpackOutputPath.getD cfg.servicePath

def getProviderRuntime (cfg : Config) : Option String :=
  cfg.providerRuntime

/-- JavaScript or-default: getProviderRuntime() or the literal node.
An absent runtime and an empty runtime string are both falsy. -/
def orNodeFallback : Option String → String
  | none => "node"
  | some s => if s = "" then "node" else s

/-- Substring test on character lists, needle first. -/
def startsWithList : List Char → List Char → Bool
  | [], _ => true
  | _ :: _, [] => false
  | a :: as, b :: bs => a = b && startsWithList as bs

def containsList (needle : List Char) : List Char → Bool
  | [] => startsWithList needle []
  | b :: rest => startsWithList needle (b :: rest) || containsList needle rest

/-- JavaScript regular-expression test for a literal pattern: substring
containment. -/
def containsSub (needle hay : String) : Bool :=
  containsList needle.data hay.data

/-- Path join for the already-normalized absolute directories and
relative segments the plugin passes to path.join. -/
def pathJoin (a b : String) : String :=
  a ++ "/" ++ b

def splitSegsAux : List Char → List Char → List String
  | [], acc => [String.mk acc.reverse]
  | c :: rest, acc =>
    if c = '/' then String.mk acc.reverse :: splitSegsAux rest []
    else splitSegsAux rest (c :: acc)

/-- Splits a path on the directory separator, dropping empty segments. -/
def splitPath (p : String) : List String :=
  (splitSegsAux p.data []).filter (fun s => s ≠ "")

def dropCommonPath : List String → List String → List String × List String
  | a :: as, b :: bs =>
    if a = b then dropCommonPath as bs else (a :: as, b :: bs)
  | as, bs => (as, bs)

/-- Node path.relative for absolute POSIX paths: strip the common leading
segments, then climb out of the remaining source segments. -/
def pathRelative (src dst : String) : String :=
  let pair := dropCommonPath (splitPath src) (splitPath dst)
  String.intercalate "/" (pair.fst.map (fun _ => "..") ++ pair.snd)

/-! ## Engine pruner

getPrismaEngines builds the engine glob set from the resolved
architecture; deleteUnusedEngines expands it and force-deletes every
match. JavaScript object indexing with a key absent from the
Architecture Mapping yields undefined, and template-literal
interpolation renders undefined as the string "undefined"; archPlatform
captures exactly that behaviour of the source line
getArchitectures()[getArchitecture()]. -/

def archPlatform (cfg : Config) : String :=
  (lookupArch getArchitectures (getArchitecture cfg)).getD "undefined"

def getPrismaEngines (cfg : Config) : List String :=
  let plat := archPlatform cfg
  [ "node_modules/.prisma/client/libquery_engine*",
    "!node_modules/.prisma/client/libquery_engine-" ++ plat ++ "*",
    "node_modules/prisma/libquery_engine*",
    "!node_modules/prisma/libquery_engine-" ++ plat ++ "*",
    "node_modules/@prisma/engines/libquery_engine*",
    "!node_modules/@prisma/engines/libquery_engine-" ++ plat ++ "*",
    "node_modules/@prisma/engines/migration-engine*",
    "!node_modules/@prisma/engines/migration-engine-" ++ plat ++ "*",
    "node_modules/@prisma/engines/prisma-fmt*",
    "!node_modules/@prisma/engines/prisma-fmt-" ++ plat ++ "*",
    "node_modules/@prisma/engines/introspection-engine*",
    "!node_modules/@prisma/engines/introspection-engine-" ++ plat ++ "*",
    "node_modules/@prisma/engines/schema-engine*",
    "!node_modules/@prisma/engines/schema-engine-" ++ plat ++ "*" ]

/-- Matches a glob of the shape literal-then-star, the only shape in the
engine glob set: the path starts with the literal and the remainder
crosses no directory separator. The star also matches the empty rest. -/
def matchStarPattern (pattern : String) (path : String) : Bool :=
  let lit := pattern.data.dropLast
  startsWithList lit path.data && !((path.data.drop lit.length).contains '/')

/-- fast-glob semantics for a mixed pattern list: a file is returned when
it matches at least one positive pattern and no negated pattern, in the
enumeration order of the file listing. The file listing stands for the
directory tree under the working directory. -/
def globSyncModel (patterns : List String) (files : List String) : List String :=
  let positives := patterns.filter (fun p => !(startsWithList ['!'] p.data))
  let negatives := (patterns.filter (fun p => startsWithList ['!'] p.data)).map
    (fun p => String.mk (p.data.drop 1))
  files.filter (fun f =>
    positives.any (fun p => matchStarPattern p f)
      && !(negatives.any (fun p => matchStarPattern p f)))

/-- deleteUnusedEngines: expand the engine glob set in the working
directory and force-delete every match; an empty match list returns
early. The result is the list of deleted absolute paths, in order; force
deletion never errors. -/
def deleteUnusedEngines (cfg : Config) (cwd : String) (files : List String) : List String :=
  let engines := globSyncModel (getPrismaEngines cfg) files
  if engines.length = 0 then []
  else engines.map (fun engine => pathJoin cwd engine)

/-! ## Filesystem model and schema materializer -/

inductive FsEntry where
  | file (content : String)
  | dir
  | symlink (target : String)
deriving DecidableEq, Repr

/-- A filesystem is a finite path-to-entry table, embedded as an ordered
association list. -/
abbrev Fs := List (String × FsEntry)

def fsGet : Fs → String → Option FsEntry
  | [], _ => none
  | (q, e) :: rest, p => if q = p then some e else fsGet rest p

def fsSet : Fs → String → FsEntry → Fs
  | [], p, e => [(p, e)]
  | (q, d) :: rest, p, e =>
    if q = p then (q, e) :: rest else (q, d) :: fsSet rest p e

def existsSync (p : String) (fs : Fs) : Bool :=
  (fsGet fs p).isSome

/-- mkdirSync as called by the source: the call is guarded by a negative
existsSync check, so only the creating case is modelled. -/
def mkdirSync (p : String) (fs : Fs) : Fs :=
  fsSet fs p .dir

/-- symlinkSync fails with EEXIST when the link path already exists, and
otherwise records a symlink entry; it never follows or copies bytes. -/
def symlinkSync (target path : String) (fs : Fs) : Except String Fs :=
  if existsSync path fs then .error "EEXIST"
  else .ok (fsSet fs path (.symlink target))

/-- cpSync with the force option: overwrites the destination, fails with
ENOENT when the source file is missing. -/
def cpSync (src dst : String) (fs : Fs) : Except String Fs :=
  match fsGet fs src with
  | some (.file c) => .ok (fsSet fs dst (.file c))
  | _ => .error "ENOENT"

/-- managePrismaSchema: place the schema into the unit directory, by
directory symlink or by file copy, creating the destination directory
first when copying. -/
def managePrismaSchema (action cwd prismaDir : String) (fs : Fs) : Except String Fs :=
  let targetDir := pathJoin cwd "prisma"
  let relativePath := pathRelative cwd prismaDir
  if action = "symlink" then
    symlinkSync relativePath targetDir fs
  else
    let sourceSchemaPath := pathJoin prismaDir "schema.prisma"
    let targetSchemaPath := pathJoin targetDir "schema.prisma"
    let fs1 := if existsSync targetDir fs then fs else mkdirSync targetDir fs
    cpSync sourceSchemaPath targetSchemaPath fs1

/-! ## Package-script manager

managePackageScripts reads the package manifest of the working
directory, applies a single lodash set or unset at the path
scripts.prisma:generate, and writes the manifest back with 2-space
indentation. The file read and JSON.parse are modelled by taking the
parsed manifest as input; the write is modelled by the returned
serialized string. -/

def managePackageScripts (action : String) (manifest : Json) : Json × String :=
  let updated :=
    if action = "add" then
      jsonSet2 manifest "scripts" "prisma:generate" (.str "prisma generate")
    else
      jsonUnset2 manifest "scripts" "prisma:generate"
  (updated, jsonStringify 2 updated)

/-- Top-level field list of a manifest value. -/
def topFields : Json → List (String × Json)
  | .obj fields => fields
  | _ => []

/-- Script table of a manifest: the field list of its scripts object, or
empty when scripts is absent or not an object. -/
def scriptEntries (j : Json) : List (String × Json) :=
  match lookupField (topFields j) "scripts" with
  | some (.obj s) => s
  | _ => []

/-! ## Function selector -/

/-- isFunctionImage: a definition is image-based when its image property
is not undefined, whatever the value. -/
def isFunctionImage (func : Json) : Bool :=
  match func with
  | .obj fields => (lookupField fields "image").isSome
  | _ => false

def isFunctionIgnored (cfg : Config) (funcName : String) : Bool :=
  (getIgnoredFunctions cfg).contains funcName

/-- isRuntimeNode: reads the runtime through the lodash path
handler.runtime with default empty string, and tests it and the
provider runtime (with the node fallback) against the node pattern. -/
def isRuntimeNode (cfg : Config) (func : Json) : Bool :=
  let funcRuntime := getStrAt func ["handler", "runtime"] ""
  let providerRuntime := orNodeFallback (getProviderRuntime cfg)
  containsSub "node" funcRuntime || containsSub "node" providerRuntime

/-- getNodeFunctions: filter the registry enumeration, excluding
image-based, non-node-runtime and explicitly ignored functions, in
registry order. The none branch of the lookup is unreachable because the
filtered names are enumerated from the registry itself. -/
def getNodeFunctions (cfg : Config) : List String :=
  let functions := cfg.functions.map Prod.fst
  functions.filter fun funcName =>
    match lookupField cfg.functions funcName with
    | none => false
    | some func =>
      if isFunctionImage func then false
      else if !(isRuntimeNode cfg func) then false
      else if isFunctionIgnored cfg funcName then false
      else true

def getFunctionNames (cfg : Config) : List String :=
  if cfg.packageIndividually.getD false then getNodeFunctions cfg
  else ["service"]

/-! ## Tool lifecycle manager, effect level

The install path is modelled as the ordered list of its observable
effects: the narration line, the manifest-script mutation and the
synchronous command execution built by runCommand. -/

inductive Effect where
  | log (msg : String)
  | pkgScript (action : String) (cwd : String)
  | exec (cmd : String) (cwd : String)
deriving DecidableEq, Repr

/-- runCommand: join the arguments with single spaces, join command and
argument string with a space, and execute synchronously in the working
directory. -/
def runCommand (command : String) (args : List String) (cwd : String) : List Effect :=
  let strArgs := String.intercalate " " args
  let cmd := String.intercalate " " [command, strArgs]
  [Effect.exec cmd cwd]

/-- installPrismaPackage: narrate, add the generation script entry, then
run the package-manager install with the dev-dependency flag and the
at-sign-joined package specifier. A configured version is pushed onto
the specifier parts exactly when it is truthy, that is non-empty. -/
def installPrismaPackage (cfg : Config) (cwd : String) : List Effect :=
  [Effect.log "Installing prisma devDependencies...",
   Effect.pkgScript "add" cwd]
  ++ (let packageName :=
        if getPrismaVersion cfg = "" then ["prisma"]
        else ["prisma", getPrismaVersion cfg]
      runCommand (getPackageManager cfg) ["install", "-D", String.intercalate "@" packageName] cwd)

/-! ## Orchestrator

onBeforeWebpackPackage is modelled as the ordered list of the method
invocations its loop body performs; each listed step is the complete
per-unit operation modelled elsewhere in this file. -/

inductive Step where
  | installPrismaPackage (cwd : String)
  | managePrismaSchema (action : String) (cwd : String) (prismaDir : String)
  | generatePrismaClient (cwd : String)
  | deleteUnusedEngines (cwd : String)
  | removePrismaPackage (cwd : String)
deriving DecidableEq, Repr

def onBeforeWebpackPackage (cfg : Config) : List Step :=
  let prismaRelativePath := getPrismaPath cfg
  let prismaDir := pathJoin prismaRelativePath "prisma"
  let webpackDir := pathJoin (getWebpackOutputPath cfg) ".webpack"
  let functions := getFunctionNames cfg
  let schemaAction := if getUseSymlink cfg then "symlink" else "copy"
  functions.foldl
    (fun acc funcName =>
      let cwd := pathJoin webpackDir funcName
      acc ++
      ((if getInstallDeps cfg then [Step.installPrismaPackage cwd] else [])
       ++ ([Step.managePrismaSchema schemaAction cwd prismaDir,
            Step.generatePrismaClient cwd,
            Step.deleteUnusedEngines cwd]
           ++ (if getInstallDeps cfg then [Step.removePrismaPackage cwd] else []))))
    []

/-! ## Spec-side comparison definitions -/

/-- Spec-side definition, following the words of the specification for
comparison with the code: the generation command must append the
data-proxy flag when the data-proxy configuration option is enabled. -/
def specGenerateScript (cfg : Config) : String :=
  if cfg.dataProxy then "prisma generate --data-proxy" else "prisma generate"

/-- Spec-side definition, following the words of the claim for
comparison with the code: the effective runtime of a function is its own
runtime field if set, else the provider-level default, else the literal
node. -/
def specEffectiveRuntime (cfg : Config) (func : Json) : String :=
  match jsonGetPath func ["runtime"] with
  | some (.str s) => s
  | _ =>
    match cfg.providerRuntime with
    | some s => s
    | none => "node"

/-- Spec-side positive engine globs, one for each generated-artifact
name under each install location. -/
def enginePositives : List String :=
  [ "node_modules/.prisma/client/libquery_engine*",
    "node_modules/prisma/libquery_engine*",
    "node_modules/@prisma/engines/libquery_engine*",
    "node_modules/@prisma/engines/migration-engine*",
    "node_modules/@prisma/engines/prisma-fmt*",
    "node_modules/@prisma/engines/introspection-engine*",
    "node_modules/@prisma/engines/schema-engine*" ]

/-- Spec-side literal stems of the engine files kept for a platform: the
artifact name immediately followed by a dash and the platform
identifier. -/
def engineKeptLiterals (plat : String) : List String :=
  [ "node_modules/.prisma/client/libquery_engine-" ++ plat,
    "node_modules/prisma/libquery_engine-" ++ plat,
    "node_modules/@prisma/engines/libquery_engine-" ++ plat,
    "node_modules/@prisma/engines/migration-engine-" ++ plat,
    "node_modules/@prisma/engines/prisma-fmt-" ++ plat,
    "node_modules/@prisma/engines/introspection-engine-" ++ plat,
    "node_modules/@prisma/engines/schema-engine-" ++ plat ]

/-- A file is kept for a platform when it matches one of the paired
exclusion globs, that is one kept stem extended by the non-separator
star. -/
def keptEngineFile (plat : String) (f : String) : Bool :=
  (engineKeptLiterals plat).any (fun l => matchStarPattern (l ++ "*") f)

/-- A file is engine-matched when it matches one of the positive engine
globs. -/
def positiveEngineMatch (f : String) : Bool :=
  enginePositives.any (fun p => matchStarPattern p f)

/-! ## Helper lemmas -/

theorem lookupField_objSet_self (fs : List (String × Json)) (k : String) (v : Json) :
    lookupField (objSet fs k v) k = some v := by
  induction fs with
  | nil => simp [objSet, lookupField]
  | cons hd tl ih =>
    obtain ⟨k0, v0⟩ := hd
    by_cases h : k0 = k
    · simp [objSet, lookupField, h]
    · simp [objSet, lookupField, h, ih]

theorem lookupField_objSet_ne (fs : List (String × Json)) (k k2 : String) (v : Json)
    (h : k2 ≠ k) : lookupField (objSet fs k v) k2 = lookupField fs k2 := by
  induction fs with
  | nil =>
    have h2 : ¬ k = k2 := fun he => h he.symm
    simp [objSet, lookupField, h2]
  | cons hd tl ih =>
    obtain ⟨k0, v0⟩ := hd
    by_cases h0 : k0 = k
    · subst h0
      have h2 : ¬ k0 = k2 := fun he => h (he.symm)
      simp [objSet, lookupField, h2]
    · simp only [objSet, if_neg h0, lookupField]
      by_cases h1 : k0 = k2
      · simp [h1]
      · simp [h1, ih]

theorem objErase_objSet (fs : List (String × Json)) (k : String) (v : Json) :
    objErase (objSet fs k v) k = objErase fs k := by
  induction fs with
  | nil => simp [objSet, objErase]
  | cons hd tl ih =>
    obtain ⟨k0, v0⟩ := hd
    by_cases h : k0 = k
    · simp [objSet, objErase, h]
    · simp [objSet, objErase, h, ih]

theorem objErase_of_lookup_none (fs : List (String × Json)) (k : String)
    (h : lookupField fs k = none) : objErase fs k = fs := by
  induction fs with
  | nil => simp [objErase]
  | cons hd tl ih =>
    obtain ⟨k0, v0⟩ := hd
    by_cases h0 : k0 = k
    · simp [lookupField, h0] at h
    · simp only [lookupField, if_neg h0] at h
      simp [objErase, h0, ih h]

theorem lookupField_objErase_self (fs : List (String × Json)) (k : String) :
    lookupField (objErase fs k) k = none := by
  induction fs with
  | nil => simp [objErase, lookupField]
  | cons hd tl ih =>
    obtain ⟨k0, v0⟩ := hd
    by_cases h : k0 = k
    · simp [objErase, h, ih]
    · simp [objErase, lookupField, h, ih]

theorem objSet_absent (fs : List (String × Json)) (k : String) (v : Json)
    (h : lookupField fs k = none) : objSet fs k v = fs ++ [(k, v)] := by
  induction fs with
  | nil => simp [objSet]
  | cons hd tl ih =>
    obtain ⟨k0, v0⟩ := hd
    by_cases h0 : k0 = k
    · simp [lookupField, h0] at h
    · simp only [lookupField, if_neg h0] at h
      simp [objSet, h0, ih h]

theorem objSet_lookup_same (fs : List (String × Json)) (k : String) (v : Json)
    (h : lookupField fs k = some v) : objSet fs k v = fs := by
  induction fs with
  | nil => simp [lookupField] at h
  | cons hd tl ih =>
    obtain ⟨k0, v0⟩ := hd
    by_cases h0 : k0 = k
    · simp only [lookupField, if_pos h0] at h
      cases h
      simp [objSet, h0]
    · simp only [lookupField, if_neg h0] at h
      simp [objSet, h0, ih h]

theorem lookupField_mem_fst (fs : List (String × Json)) (k : String) (v : Json)
    (h : lookupField fs k = some v) : k ∈ fs.map Prod.fst := by
  induction fs with
  | nil => simp [lookupField] at h
  | cons hd tl ih =>
    obtain ⟨k0, v0⟩ := hd
    by_cases h0 : k0 = k
    · simp [h0]
    · simp only [lookupField, if_neg h0] at h
      simp [ih h]

theorem fsGet_fsSet_self (fs : Fs) (p : String) (e : FsEntry) :
    fsGet (fsSet fs p e) p = some e := by
  induction fs with
  | nil => simp [fsSet, fsGet]
  | cons hd tl ih =>
    obtain ⟨q, d⟩ := hd
    by_cases h : q = p
    · simp [fsSet, fsGet, h]
    · simp [fsSet, fsGet, h, ih]

theorem fsGet_fsSet_ne (fs : Fs) (p q : String) (e : FsEntry) (h : q ≠ p) :
    fsGet (fsSet fs p e) q = fsGet fs q := by
  induction fs with
  | nil =>
    have h2 : ¬ p = q := fun he => h he.symm
    simp [fsSet, fsGet, h2]
  | cons hd tl ih =>
    obtain ⟨r, d⟩ := hd
    by_cases h0 : r = p
    · subst h0
      have h2 : ¬ r = q := fun he => h he.symm
      simp [fsSet, fsGet, h2]
    · simp only [fsSet, if_neg h0, fsGet]
      by_cases h1 : r = q
      · simp [h1]
      · simp [h1, ih]

theorem fsSet_fsSet_self (fs : Fs) (p : String) (e : FsEntry) :
    fsSet (fsSet fs p e) p e = fsSet fs p e := by
  induction fs with
  | nil => simp [fsSet]
  | cons hd tl ih =>
    obtain ⟨q, d⟩ := hd
    by_cases h : q = p
    · simp [fsSet, h]
    · simp [fsSet, h, ih]

theorem strAppend_cancel_left (a b c : String) (h : a ++ b = a ++ c) : b = c := by
  have h2 := congrArg String.data h
  simp only [String.data_append] at h2
  exact String.ext (List.append_cancel_left h2)

theorem foldl_append_eq_flatMap {α β : Type} (f : α → List β) (l : List α) (acc : List β) :
    l.foldl (fun a x => a ++ f x) acc = acc ++ l.flatMap f := by
  induction l generalizing acc with
  | nil => simp
  | cons x xs ih => simp [ih]

theorem cpSync_ok (src dst : String) (fs fs2 : Fs)
    (h : cpSync src dst fs = .ok fs2) :
    ∃ c, fsGet fs src = some (.file c) ∧ fs2 = fsSet fs dst (.file c) := by
  unfold cpSync at h
  cases hg : fsGet fs src with
  | none => rw [hg] at h; exact absurd h (by simp)
  | some e =>
    cases e with
    | file c =>
      rw [hg] at h
      simp only [Except.ok.injEq] at h
      exact ⟨c, rfl, h.symm⟩
    | dir => rw [hg] at h; exact absurd h (by simp)
    | symlink t => rw [hg] at h; exact absurd h (by simp)

/-! ## Claim theorems -/

theorem lookupField_scriptEntries_set (fields : List (String × Json)) (k2 : String) (v : Json) :
    lookupField (scriptEntries (jsonSet2 (Json.obj fields) "scripts" k2 v)) k2 = some v := by
  show lookupField
    (scriptEntries (Json.obj (objSet fields "scripts"
      (Json.obj (objSet (match lookupField fields "scripts" with
        | some (Json.obj innerFields) => innerFields
        | _ => []) k2 v))))) k2 = some v
  unfold scriptEntries topFields
  rw [lookupField_objSet_self]
  exact lookupField_objSet_self _ _ _

/-- Configuration requesting an architecture that is not a key of the
Architecture Mapping. -/
def cfgDarwin : Config := { architecture := some "darwin" }

/-- Claim C1: the claim requires architecture resolution to fail with an
error for an unmapped architecture before any engine deletion. The code
instead resolves the platform identifier to the literal string undefined
and proceeds: the exclusion globs then match nothing, so the engine
files of every real platform, including both supported deployment
targets, are deleted without any error being raised. -/
theorem c1_unmapped_architecture_prunes_silently :
    archPlatform cfgDarwin = "undefined"
    ∧ deleteUnusedEngines cfgDarwin "/out"
        ["node_modules/prisma/libquery_engine-rhel-openssl-1.1.x.so.node",
         "node_modules/prisma/libquery_engine-linux-arm64-openssl-1.1.x.so.node"]
      = ["/out/node_modules/prisma/libquery_engine-rhel-openssl-1.1.x.so.node",
         "/out/node_modules/prisma/libquery_engine-linux-arm64-openssl-1.1.x.so.node"] := by
  exact ⟨rfl, by decide⟩

/-- Configuration with the documented data-proxy toggle enabled. -/
def cfgDataProxy : Config := { dataProxy := true }

/-- Claim C2 counterexample: with the data-proxy option enabled,
managePackageScripts add still sets the generation script to exactly
prisma generate, which does not contain, and hence does not end in, the
data-proxy flag the claim and the spec-side command require. -/
theorem c2_counterexample_data_proxy_flag_never_appended :
    cfgDataProxy.dataProxy = true
    ∧ lookupField
        (scriptEntries (managePackageScripts "add" (Json.obj [("scripts", Json.obj [])])).1)
        "prisma:generate" = some (Json.str "prisma generate")
    ∧ specGenerateScript cfgDataProxy ≠ "prisma generate"
    ∧ containsSub "--data-proxy" "prisma generate" = false := by
  refine ⟨rfl, rfl, ?_, by decide⟩
  decide

/-- Claim C2 as amended: managePackageScripts add sets the generation
script entry to exactly prisma generate for every manifest object; the
data-proxy option is consulted by no code path, so no flag is ever
appended. -/
theorem c2_amended_generation_script_is_plain (fields : List (String × Json)) :
    lookupField (scriptEntries (managePackageScripts "add" (Json.obj fields)).1)
      "prisma:generate" = some (Json.str "prisma generate") := by
  show lookupField (scriptEntries (jsonSet2 (Json.obj fields) "scripts" "prisma:generate"
    (Json.str "prisma generate"))) "prisma:generate" = some (Json.str "prisma generate")
  exact lookupField_scriptEntries_set fields "prisma:generate" (Json.str "prisma generate")

/-- Claim C9: the install step first adds the generation script entry,
then issues the package-manager install command with the dev-dependency
flag and the specifier prisma at-sign version exactly when a version is
configured non-empty, and the bare specifier prisma otherwise. -/
theorem c9_install_adds_script_then_installs_specifier (cfg : Config) (cwd : String) :
    installPrismaPackage cfg cwd
      = [Effect.log "Installing prisma devDependencies...",
         Effect.pkgScript "add" cwd,
         Effect.exec (getPackageManager cfg ++ " install -D "
           ++ (if getPrismaVersion cfg = "" then "prisma"
               else "prisma@" ++ getPrismaVersion cfg)) cwd] := by
  unfold installPrismaPackage runCommand
  by_cases hv : getPrismaVersion cfg = ""
  · simp only [hv, if_pos rfl]
    show [Effect.log "Installing prisma devDependencies...", Effect.pkgScript "add" cwd]
        ++ [Effect.exec (getPackageManager cfg ++ " " ++ "install -D prisma") cwd]
      = [Effect.log "Installing prisma devDependencies...",
         Effect.pkgScript "add" cwd,
         Effect.exec (getPackageManager cfg ++ " install -D " ++ "prisma") cwd]
    rw [String.append_assoc, String.append_assoc]
    have h : (" " ++ "install -D prisma" : String) = " install -D " ++ "prisma" := by decide
    rw [h]
    rfl
  · simp only [hv, if_neg hv]
    show [Effect.log "Installing prisma devDependencies...", Effect.pkgScript "add" cwd]
        ++ [Effect.exec (getPackageManager cfg ++ " "
              ++ ("install -D " ++ ("prisma@" ++ getPrismaVersion cfg))) cwd]
      = [Effect.log "Installing prisma devDependencies...",
         Effect.pkgScript "add" cwd,
         Effect.exec (getPackageManager cfg ++ " install -D "
           ++ ("prisma@" ++ getPrismaVersion cfg)) cwd]
    rw [String.append_assoc, String.append_assoc, ← String.append_assoc " "]
    have h : (" " ++ "install -D " : String) = " install -D " := by decide
    rw [h]
    rfl

/-- Claim C5: for every configuration the orchestrator entry point
processes the eligible packaging units one after the other, and for each
unit performs, in this exact order, optional tool install, schema
materialization in the configured mode, client generation, engine
pruning and optional tool removal, completing one unit before starting
the next. -/
theorem c5_orchestrator_per_unit_order (cfg : Config) :
    onBeforeWebpackPackage cfg
      = (getFunctionNames cfg).flatMap (fun funcName =>
          let cwd := pathJoin (pathJoin (getWebpackOutputPath cfg) ".webpack") funcName
          (if getInstallDeps cfg then [Step.installPrismaPackage cwd] else [])
          ++ ([Step.managePrismaSchema (if getUseSymlink cfg then "symlink" else "copy") cwd
                 (pathJoin (getPrismaPath cfg) "prisma"),
               Step.generatePrismaClient cwd,
               Step.deleteUnusedEngines cwd]
              ++ (if getInstallDeps cfg then [Step.removePrismaPackage cwd] else []))) := by
  have h := foldl_append_eq_flatMap
    (fun funcName =>
      let cwd := pathJoin (pathJoin (getWebpackOutputPath cfg) ".webpack") funcName
      (if getInstallDeps cfg then [Step.installPrismaPackage cwd] else [])
      ++ ([Step.managePrismaSchema (if getUseSymlink cfg then "symlink" else "copy") cwd
             (pathJoin (getPrismaPath cfg) "prisma"),
           Step.generatePrismaClient cwd,
           Step.deleteUnusedEngines cwd]
          ++ (if getInstallDeps cfg then [Step.removePrismaPackage cwd] else [])))
    (getFunctionNames cfg) []
  exact h

theorem objErase_idem (fs : List (String × Json)) (k : String) :
    objErase (objErase fs k) k = objErase fs k := by
  induction fs with
  | nil => simp [objErase]
  | cons hd tl ih =>
    obtain ⟨k0, v0⟩ := hd
    by_cases h : k0 = k
    · simp [objErase, h, ih]
    · simp [objErase, h, ih]

theorem jsonSet2_eq (fields : List (String × Json)) (k1 k2 : String) (v : Json) :
    jsonSet2 (Json.obj fields) k1 k2 v
      = Json.obj (objSet fields k1 (Json.obj (objSet
          (match lookupField fields k1 with
           | some (Json.obj innerFields) => innerFields
           | _ => []) k2 v))) := rfl

theorem scriptEntries_obj (fields : List (String × Json)) :
    scriptEntries (Json.obj fields)
      = (match lookupField fields "scripts" with
         | some (Json.obj s) => s
         | _ => []) := by
  unfold scriptEntries topFields
  rfl

/-- Claim C6: for every action and manifest object, managePackageScripts
changes only the prisma:generate entry of the scripts table: the
remaining top-level fields and the remaining script entries are
unchanged, values and order included; the entry is present with value
prisma generate after add and absent after any other action; and the
written output is the 2-space-indented serialization of the updated
manifest. -/
theorem c6_manage_scripts_is_targeted_mutation (action : String) (fields : List (String × Json)) :
    objErase (topFields (managePackageScripts action (Json.obj fields)).1) "scripts"
        = objErase fields "scripts"
    ∧ objErase (scriptEntries (managePackageScripts action (Json.obj fields)).1) "prisma:generate"
        = objErase (scriptEntries (Json.obj fields)) "prisma:generate"
    ∧ lookupField (scriptEntries (managePackageScripts action (Json.obj fields)).1) "prisma:generate"
        = (if action = "add" then some (Json.str "prisma generate") else none)
    ∧ (managePackageScripts action (Json.obj fields)).2
        = jsonStringify 2 (managePackageScripts action (Json.obj fields)).1 := by
  by_cases ha : action = "add"
  · subst ha
    refine ⟨?_, ?_, ?_, rfl⟩
    · show objErase (topFields (jsonSet2 (Json.obj fields) "scripts" "prisma:generate"
        (Json.str "prisma generate"))) "scripts" = objErase fields "scripts"
      rw [jsonSet2_eq]
      unfold topFields
      exact objErase_objSet _ _ _
    · show objErase (scriptEntries (jsonSet2 (Json.obj fields) "scripts" "prisma:generate"
        (Json.str "prisma generate"))) "prisma:generate"
        = objErase (scriptEntries (Json.obj fields)) "prisma:generate"
      rw [jsonSet2_eq, scriptEntries_obj, scriptEntries_obj, lookupField_objSet_self]
      cases hs : lookupField fields "scripts" with
      | none => simp only [hs]; exact objErase_objSet _ _ _
      | some w =>
        cases w <;> simp only [hs] <;> exact objErase_objSet _ _ _
    · show lookupField (scriptEntries (jsonSet2 (Json.obj fields) "scripts" "prisma:generate"
        (Json.str "prisma generate"))) "prisma:generate" = if ("add" : String) = "add"
          then some (Json.str "prisma generate") else none
      rw [if_pos rfl]
      exact lookupField_scriptEntries_set fields _ _
  · have hu : (managePackageScripts action (Json.obj fields)).1
        = jsonUnset2 (Json.obj fields) "scripts" "prisma:generate" := by
      unfold managePackageScripts
      rw [if_neg ha]
    refine ⟨?_, ?_, ?_, rfl⟩
    · rw [hu]
      unfold jsonUnset2
      cases hs : lookupField fields "scripts" with
      | none => simp only [hs]; rfl
      | some w =>
        cases w with
        | null => simp only [hs]; rfl
        | bool b => simp only [hs]; rfl
        | num n => simp only [hs]; rfl
        | str s => simp only [hs]; rfl
        | arr es => simp only [hs]; rfl
        | obj inner =>
          simp only [hs]
          unfold topFields
          exact objErase_objSet _ _ _
    · rw [hu]
      unfold jsonUnset2
      cases hs : lookupField fields "scripts" with
      | none => simp only [hs]
      | some w =>
        cases w with
        | null => simp only [hs]
        | bool b => simp only [hs]
        | num n => simp only [hs]
        | str s => simp only [hs]
        | arr es => simp only [hs]
        | obj inner =>
          simp only [hs]
          rw [scriptEntries_obj, scriptEntries_obj, lookupField_objSet_self, hs]
          exact objErase_idem _ _
    · rw [hu, if_neg ha]
      unfold jsonUnset2
      cases hs : lookupField fields "scripts" with
      | none => simp only [hs]; rw [scriptEntries_obj, hs]; rfl
      | some w =>
        cases w with
        | null => simp only [hs]; rw [scriptEntries_obj, hs]; rfl
        | bool b => simp only [hs]; rw [scriptEntries_obj, hs]; rfl
        | num n => simp only [hs]; rw [scriptEntries_obj, hs]; rfl
        | str s => simp only [hs]; rw [scriptEntries_obj, hs]; rfl
        | arr es => simp only [hs]; rw [scriptEntries_obj, hs]; rfl
        | obj inner =>
          simp only [hs]
          rw [scriptEntries_obj, lookupField_objSet_self]
          exact lookupField_objErase_self _ _

/-- Claim C10: on a manifest with no scripts object at all, add still
succeeds, creating the scripts object as the appended last key with the
single generation entry, and produces the serialized output; and remove
on a manifest lacking the generation entry succeeds, leaves the manifest
unchanged and still produces the serialized output for the rewrite. -/
theorem c10_manage_scripts_missing_scripts_cases
    (fieldsA fieldsB : List (String × Json))
    (hA : lookupField fieldsA "scripts" = none)
    (hB : lookupField (scriptEntries (Json.obj fieldsB)) "prisma:generate" = none) :
    managePackageScripts "add" (Json.obj fieldsA)
      = (Json.obj (fieldsA
            ++ [("scripts", Json.obj [("prisma:generate", Json.str "prisma generate")])]),
         jsonStringify 2 (Json.obj (fieldsA
            ++ [("scripts", Json.obj [("prisma:generate", Json.str "prisma generate")])])))
    ∧ managePackageScripts "remove" (Json.obj fieldsB)
      = (Json.obj fieldsB, jsonStringify 2 (Json.obj fieldsB)) := by
  constructor
  · have h1 : jsonSet2 (Json.obj fieldsA) "scripts" "prisma:generate"
        (Json.str "prisma generate")
        = Json.obj (fieldsA
            ++ [("scripts", Json.obj [("prisma:generate", Json.str "prisma generate")])]) := by
      rw [jsonSet2_eq, hA]
      exact congrArg Json.obj (objSet_absent fieldsA "scripts" _ hA)
    show (jsonSet2 (Json.obj fieldsA) "scripts" "prisma:generate" (Json.str "prisma generate"),
          jsonStringify 2 (jsonSet2 (Json.obj fieldsA) "scripts" "prisma:generate"
            (Json.str "prisma generate")))
      = _
    rw [h1]
  · have h2 : jsonUnset2 (Json.obj fieldsB) "scripts" "prisma:generate" = Json.obj fieldsB := by
      unfold jsonUnset2
      cases hs : lookupField fieldsB "scripts" with
      | none => simp only [hs]
      | some w =>
        cases w with
        | null => simp only [hs]
        | bool b => simp only [hs]
        | num n => simp only [hs]
        | str s => simp only [hs]
        | arr es => simp only [hs]
        | obj inner =>
          simp only [hs]
          rw [scriptEntries_obj, hs] at hB
          rw [objErase_of_lookup_none inner _ hB]
          exact congrArg Json.obj (objSet_lookup_same fieldsB "scripts" (Json.obj inner) hs)
    show (jsonUnset2 (Json.obj fieldsB) "scripts" "prisma:generate",
          jsonStringify 2 (jsonUnset2 (Json.obj fieldsB) "scripts" "prisma:generate"))
      = _
    rw [h2]

/-- Witness for the C10 theorem at a concrete manifest pair: a manifest
with only a name field for add, and a manifest with a scripts table
lacking the generation entry for remove. -/
theorem c10_manage_scripts_missing_scripts_cases_witness :
    lookupField [("name", Json.str "app")] "scripts" = none
    ∧ lookupField (scriptEntries (Json.obj [("scripts", Json.obj [("test", Json.str "jest")])]))
        "prisma:generate" = none
    ∧ (managePackageScripts "add" (Json.obj [("name", Json.str "app")])
        = (Json.obj [("name", Json.str "app"),
            ("scripts", Json.obj [("prisma:generate", Json.str "prisma generate")])],
           jsonStringify 2 (Json.obj [("name", Json.str "app"),
            ("scripts", Json.obj [("prisma:generate", Json.str "prisma generate")])]))
       ∧ managePackageScripts "remove" (Json.obj [("scripts", Json.obj [("test", Json.str "jest")])])
        = (Json.obj [("scripts", Json.obj [("test", Json.str "jest")])],
           jsonStringify 2 (Json.obj [("scripts", Json.obj [("test", Json.str "jest")])]))) :=
  ⟨rfl, rfl,
   c10_manage_scripts_missing_scripts_cases
     [("name", Json.str "app")] [("scripts", Json.obj [("test", Json.str "jest")])] rfl rfl⟩

theorem mem_getNodeFunctions_iff (cfg : Config) (name : String) (func : Json)
    (h : lookupField cfg.functions name = some func) :
    name ∈ getNodeFunctions cfg
      ↔ (isFunctionImage func = false
         ∧ isRuntimeNode cfg func = true
         ∧ isFunctionIgnored cfg name = false) := by
  unfold getNodeFunctions
  rw [List.mem_filter]
  constructor
  · rintro ⟨hmem, hpred⟩
    rw [h] at hpred
    by_cases h1 : isFunctionImage func
      <;> by_cases h2 : isRuntimeNode cfg func
      <;> by_cases h3 : isFunctionIgnored cfg name
      <;> simp [h1, h2, h3] at hpred ⊢
  · rintro ⟨h1, h2, h3⟩
    refine ⟨lookupField_mem_fst _ _ _ h, ?_⟩
    rw [h]
    simp [h1, h2, h3]

/-- Claim C8: a registered function whose definition carries an image
field, whatever its value and whatever its runtime, is excluded from the
node function selection for every configuration. -/
theorem c8_image_function_always_excluded (cfg : Config) (name : String) (func : Json)
    (h : lookupField cfg.functions name = some func)
    (himg : isFunctionImage func = true) :
    name ∉ getNodeFunctions cfg := by
  intro hmem
  have hc := (mem_getNodeFunctions_iff cfg name func h).mp hmem
  rw [himg] at hc
  exact absurd hc.1 (by simp)

/-- Configuration holding one image-based function whose runtime is
node, used to witness the image exclusion. -/
def cfgImageFn : Config :=
  { providerRuntime := some "nodejs18.x",
    functions := [("img", Json.obj
      [("image", Json.str "repo/app:latest"), ("runtime", Json.str "nodejs18.x")])] }

/-- Witness for the C8 theorem: the image-based function with node
runtime is excluded. -/
theorem c8_image_function_always_excluded_witness :
    lookupField cfgImageFn.functions "img"
      = some (Json.obj [("image", Json.str "repo/app:latest"),
                        ("runtime", Json.str "nodejs18.x")])
    ∧ isFunctionImage (Json.obj [("image", Json.str "repo/app:latest"),
                        ("runtime", Json.str "nodejs18.x")]) = true
    ∧ "img" ∉ getNodeFunctions cfgImageFn :=
  ⟨rfl, rfl,
   c8_image_function_always_excluded cfgImageFn "img"
     (Json.obj [("image", Json.str "repo/app:latest"),
                ("runtime", Json.str "nodejs18.x")]) rfl rfl⟩

/-- Configuration holding one handler-based function whose own runtime
field is python while the provider default is node. -/
def cfgPythonFn : Config :=
  { providerRuntime := some "nodejs18.x",
    functions := [("f", Json.obj
      [("handler", Json.str "index.handler"), ("runtime", Json.str "python3.9")])] }

/-- Claim C4 counterexample: the effective runtime in the sense of the
claim, the per-function runtime python3.9, does not contain node, so the
claim requires the function to be excluded; the code includes it,
because the runtime check reads the path handler.runtime, which does not
exist on a handler-based definition, and then accepts the function on
the provider runtime alone. -/
theorem c4_counterexample_function_runtime_ignored :
    containsSub "node" (specEffectiveRuntime cfgPythonFn
      (Json.obj [("handler", Json.str "index.handler"),
                 ("runtime", Json.str "python3.9")])) = false
    ∧ getNodeFunctions cfgPythonFn = ["f"] := by
  exact ⟨by decide, by decide⟩

/-- Claim C4 as amended: a registered handler-based function is selected
exactly when it is not image-based, not ignored, and either the string
found at the lodash path handler.runtime, defaulting to the empty string
and in particular empty for every ordinary definition whose handler is a
string, contains node, or the provider runtime, with absent and empty
falling back to the literal node, contains node. The per-function
runtime field itself is never consulted, so a function is selected
whenever the provider default is a node runtime, whatever its own
runtime says. -/
theorem c4_amended_runtime_check_or_of_handler_path_and_provider
    (cfg : Config) (name : String) (func : Json)
    (h : lookupField cfg.functions name = some func) :
    name ∈ getNodeFunctions cfg
      ↔ (isFunctionImage func = false
         ∧ (containsSub "node" (getStrAt func ["handler", "runtime"] "")
            || containsSub "node" (orNodeFallback (getProviderRuntime cfg))) = true
         ∧ isFunctionIgnored cfg name = false) :=
  mem_getNodeFunctions_iff cfg name func h

/-- Witness for the amended C4 theorem at the concrete python-runtime
function: membership holds and so does the disjunction instance. -/
theorem c4_amended_runtime_check_witness :
    lookupField cfgPythonFn.functions "f"
      = some (Json.obj [("handler", Json.str "index.handler"),
                        ("runtime", Json.str "python3.9")])
    ∧ ("f" ∈ getNodeFunctions cfgPythonFn
       ↔ (isFunctionImage (Json.obj [("handler", Json.str "index.handler"),
             ("runtime", Json.str "python3.9")]) = false
          ∧ (containsSub "node" (getStrAt (Json.obj [("handler", Json.str "index.handler"),
               ("runtime", Json.str "python3.9")]) ["handler", "runtime"] "")
             || containsSub "node" (orNodeFallback (getProviderRuntime cfgPythonFn))) = true
          ∧ isFunctionIgnored cfgPythonFn "f" = false)) :=
  ⟨rfl,
   c4_amended_runtime_check_or_of_handler_path_and_provider cfgPythonFn "f"
     (Json.obj [("handler", Json.str "index.handler"),
                ("runtime", Json.str "python3.9")]) rfl⟩

theorem mem_deleteUnusedEngines (cfg : Config) (cwd : String) (files : List String) (f : String) :
    pathJoin cwd f ∈ deleteUnusedEngines cfg cwd files
      ↔ f ∈ globSyncModel (getPrismaEngines cfg) files := by
  unfold deleteUnusedEngines
  by_cases he : (globSyncModel (getPrismaEngines cfg) files).length = 0
  · rw [if_pos he]
    rw [List.length_eq_zero] at he
    simp [he]
  · rw [if_neg he]
    constructor
    · intro hm
      rcases List.mem_map.mp hm with ⟨g, hg, heq⟩
      have hgf : g = f := strAppend_cancel_left (cwd ++ "/") g f heq
      rwa [hgf] at hg
    · intro hm
      exact List.mem_map.2 ⟨f, hm, rfl⟩

theorem c7_branch_arch (cfg : Config) (plat : String)
    (h : lookupArch getArchitectures (getArchitecture cfg) = some plat) :
    (getArchitecture cfg = "arm64" ∧ plat = "linux-arm64")
    ∨ (getArchitecture cfg = "x86_64" ∧ plat = "rhel") := by
  by_cases h1 : ("arm64" : String) = getArchitecture cfg
  · left
    refine ⟨h1.symm, ?_⟩
    simp only [lookupArch, getArchitectures, if_pos h1] at h
    exact (Option.some.injEq _ _ ▸ h).symm
  · by_cases h2 : ("x86_64" : String) = getArchitecture cfg
    · right
      refine ⟨h2.symm, ?_⟩
      simp only [lookupArch, getArchitectures, if_neg h1, if_pos h2] at h
      exact (Option.some.injEq _ _ ▸ h).symm
    · exfalso
      simp only [lookupArch, getArchitectures, if_neg h1, if_neg h2] at h
      exact Option.noConfusion h

/-- Claim C7 as amended: for every architecture in the Architecture
Mapping, the engine pruner never deletes a matched file that matches the
paired exclusion glob of the target platform, that is a file whose path
begins with an artifact stem immediately followed by a dash and the
platform identifier; it deletes every other file matching a positive
engine glob; and when nothing matches it deletes nothing and raises no
error. Name containment of the platform identifier alone does not
protect a file. -/
theorem c7_amended_pruner_keeps_exact_platform_stems
    (cfg : Config) (cwd : String) (files : List String) (plat : String)
    (h : lookupArch getArchitectures (getArchitecture cfg) = some plat) :
    (∀ f ∈ files, keptEngineFile plat f = true →
        pathJoin cwd f ∉ deleteUnusedEngines cfg cwd files)
    ∧ (∀ f ∈ files, positiveEngineMatch f = true → keptEngineFile plat f = false →
        pathJoin cwd f ∈ deleteUnusedEngines cfg cwd files)
    ∧ (globSyncModel (getPrismaEngines cfg) files = [] →
        deleteUnusedEngines cfg cwd files = []) := by
  have hnoop : globSyncModel (getPrismaEngines cfg) files = [] →
      deleteUnusedEngines cfg cwd files = [] := by
    intro hempty
    unfold deleteUnusedEngines
    rw [hempty]
    rfl
  rcases c7_branch_arch cfg plat h with ⟨ha, hp⟩ | ⟨ha, hp⟩ <;> subst hp
  · have hglob : globSyncModel (getPrismaEngines cfg) files
        = files.filter (fun f => positiveEngineMatch f && !(keptEngineFile "linux-arm64" f)) := by
      have hpe : getPrismaEngines cfg
          = getPrismaEngines { architecture := some "arm64" } := by
        unfold getPrismaEngines archPlatform
        rw [ha]
        rfl
      rw [hpe]
      rfl
    refine ⟨?_, ?_, hnoop⟩
    · intro f hf hkept hin
      rw [mem_deleteUnusedEngines, hglob] at hin
      have hpred := (List.mem_filter.mp hin).2
      simp [hkept] at hpred
    · intro f hf hpos hkept
      rw [mem_deleteUnusedEngines, hglob]
      exact List.mem_filter.2 ⟨hf, by simp [hpos, hkept]⟩
  · have hglob : globSyncModel (getPrismaEngines cfg) files
        = files.filter (fun f => positiveEngineMatch f && !(keptEngineFile "rhel" f)) := by
      have hpe : getPrismaEngines cfg
          = getPrismaEngines { architecture := some "x86_64" } := by
        unfold getPrismaEngines archPlatform
        rw [ha]
        rfl
      rw [hpe]
      rfl
    refine ⟨?_, ?_, hnoop⟩
    · intro f hf hkept hin
      rw [mem_deleteUnusedEngines, hglob] at hin
      have hpred := (List.mem_filter.mp hin).2
      simp [hkept] at hpred
    · intro f hf hpos hkept
      rw [mem_deleteUnusedEngines, hglob]
      exact List.mem_filter.2 ⟨hf, by simp [hpos, hkept]⟩

/-- Claim C3 counterexample: symlink-mode schema placement is not
idempotent: on an empty unit directory the first run succeeds and
creates the directory symlink, and the second run on the resulting state
fails with EEXIST instead of overwriting. -/
theorem c3_counterexample_symlink_rerun_fails :
    managePrismaSchema "symlink" "/fake-dir" "/prisma-dir" []
      = .ok [("/fake-dir/prisma", FsEntry.symlink "../prisma-dir")]
    ∧ managePrismaSchema "symlink" "/fake-dir" "/prisma-dir"
        [("/fake-dir/prisma", FsEntry.symlink "../prisma-dir")]
      = .error "EEXIST" := by
  exact ⟨rfl, rfl⟩

/-- Claim C3 as amended: re-running schema placement is safe in copy
mode only: a second copy-mode run on the state a successful run produced
succeeds again and leaves the state unchanged, while a second
symlink-mode run always fails with EEXIST because the symlink created by
the first run already occupies the target path. -/
theorem c3_amended_copy_idempotent_symlink_rerun_fails :
    (∀ cwd prismaDir fs fs2,
        managePrismaSchema "copy" cwd prismaDir fs = .ok fs2 →
        managePrismaSchema "copy" cwd prismaDir fs2 = .ok fs2)
    ∧ (∀ cwd prismaDir fs fs2,
        managePrismaSchema "symlink" cwd prismaDir fs = .ok fs2 →
        managePrismaSchema "symlink" cwd prismaDir fs2 = .error "EEXIST") := by
  constructor
  · intro cwd prismaDir fs fs2 h
    unfold managePrismaSchema at h ⊢
    rw [if_neg (by decide : ¬ ("copy" : String) = "symlink")] at h ⊢
    by_cases he : existsSync (pathJoin cwd "prisma") fs = true
    · rw [if_pos he] at h
      obtain ⟨c, hsrc, hfs2⟩ := cpSync_ok _ _ _ _ h
      have he2 : existsSync (pathJoin cwd "prisma") fs2 = true := by
        subst hfs2
        unfold existsSync at he ⊢
        by_cases hd : pathJoin cwd "prisma"
            = pathJoin (pathJoin cwd "prisma") "schema.prisma"
        · rw [← hd, fsGet_fsSet_self]
          rfl
        · rw [fsGet_fsSet_ne _ _ _ _ hd]
          exact he
      rw [if_pos he2]
      have hsrc2 : fsGet fs2 (pathJoin prismaDir "schema.prisma")
          = some (.file c) := by
        subst hfs2
        by_cases hsd : pathJoin prismaDir "schema.prisma"
            = pathJoin (pathJoin cwd "prisma") "schema.prisma"
        · rw [← hsd, fsGet_fsSet_self]
        · rw [fsGet_fsSet_ne _ _ _ _ hsd]
          exact hsrc
      show cpSync (pathJoin prismaDir "schema.prisma")
        (pathJoin (pathJoin cwd "prisma") "schema.prisma") fs2 = Except.ok fs2
      unfold cpSync
      rw [hsrc2]
      subst hfs2
      exact congrArg Except.ok (fsSet_fsSet_self _ _ _)
    · rw [if_neg he] at h
      obtain ⟨c, hsrc, hfs2⟩ := cpSync_ok _ _ _ _ h
      have he2 : existsSync (pathJoin cwd "prisma") fs2 = true := by
        subst hfs2
        unfold existsSync
        by_cases hd : pathJoin cwd "prisma"
            = pathJoin (pathJoin cwd "prisma") "schema.prisma"
        · rw [← hd, fsGet_fsSet_self]
          rfl
        · rw [fsGet_fsSet_ne _ _ _ _ hd]
          unfold mkdirSync
          rw [fsGet_fsSet_self]
          rfl
      rw [if_pos he2]
      have hsrc2 : fsGet fs2 (pathJoin prismaDir "schema.prisma")
          = some (.file c) := by
        subst hfs2
        by_cases hsd : pathJoin prismaDir "schema.prisma"
            = pathJoin (pathJoin cwd "prisma") "schema.prisma"
        · rw [← hsd, fsGet_fsSet_self]
        · rw [fsGet_fsSet_ne _ _ _ _ hsd]
          exact hsrc
      show cpSync (pathJoin prismaDir "schema.prisma")
        (pathJoin (pathJoin cwd "prisma") "schema.prisma") fs2 = Except.ok fs2
      unfold cpSync
      rw [hsrc2]
      subst hfs2
      exact congrArg Except.ok (fsSet_fsSet_self _ _ _)
  · intro cwd prismaDir fs fs2 h
    unfold managePrismaSchema symlinkSync at h ⊢
    rw [if_pos rfl] at h ⊢
    by_cases he : existsSync (pathJoin cwd "prisma") fs = true
    · rw [if_pos he] at h
      exact absurd h (by simp)
    · rw [if_neg he] at h
      simp only [Except.ok.injEq] at h
      have he2 : existsSync (pathJoin cwd "prisma") fs2 = true := by
        rw [← h]
        unfold existsSync
        rw [fsGet_fsSet_self]
        rfl
      rw [if_pos he2]

/-- Witness for the amended C3 theorem: a concrete copy run repeated on
its own result, and a concrete symlink run whose repetition fails. -/
theorem c3_amended_copy_idempotent_witness :
    managePrismaSchema "copy" "/fake-dir" "/prisma-dir"
        [("/prisma-dir/schema.prisma", FsEntry.file "schema")]
      = .ok [("/prisma-dir/schema.prisma", FsEntry.file "schema"),
             ("/fake-dir/prisma", FsEntry.dir),
             ("/fake-dir/prisma/schema.prisma", FsEntry.file "schema")]
    ∧ managePrismaSchema "copy" "/fake-dir" "/prisma-dir"
        [("/prisma-dir/schema.prisma", FsEntry.file "schema"),
         ("/fake-dir/prisma", FsEntry.dir),
         ("/fake-dir/prisma/schema.prisma", FsEntry.file "schema")]
      = .ok [("/prisma-dir/schema.prisma", FsEntry.file "schema"),
             ("/fake-dir/prisma", FsEntry.dir),
             ("/fake-dir/prisma/schema.prisma", FsEntry.file "schema")]
    ∧ managePrismaSchema "symlink" "/unit2" "/prisma-dir" []
      = .ok [("/unit2/prisma", FsEntry.symlink "../prisma-dir")]
    ∧ managePrismaSchema "symlink" "/unit2" "/prisma-dir"
        [("/unit2/prisma", FsEntry.symlink "../prisma-dir")]
      = .error "EEXIST" :=
  ⟨rfl,
   c3_amended_copy_idempotent_symlink_rerun_fails.1 "/fake-dir" "/prisma-dir"
     [("/prisma-dir/schema.prisma", FsEntry.file "schema")]
     [("/prisma-dir/schema.prisma", FsEntry.file "schema"),
      ("/fake-dir/prisma", FsEntry.dir),
      ("/fake-dir/prisma/schema.prisma", FsEntry.file "schema")] rfl,
   rfl,
   c3_amended_copy_idempotent_symlink_rerun_fails.2 "/unit2" "/prisma-dir" []
     [("/unit2/prisma", FsEntry.symlink "../prisma-dir")] rfl⟩

/-- Configuration selecting the x86_64 architecture explicitly. -/
def cfgX86 : Config := { architecture := some "x86_64" }

/-- Claim C7 counterexample: under the mapped architecture x86_64 with
platform identifier rhel, a matched engine file whose name contains rhel
without beginning with the artifact stem dash rhel is still deleted, so
containment of the platform identifier in the name does not protect a
file, contradicting the claim as stated. -/
theorem c7_counterexample_containment_does_not_protect :
    lookupArch getArchitectures (getArchitecture cfgX86) = some "rhel"
    ∧ containsSub "rhel" "node_modules/prisma/libquery_engine-foo-rhel.so.node" = true
    ∧ pathJoin "/out" "node_modules/prisma/libquery_engine-foo-rhel.so.node"
        ∈ deleteUnusedEngines cfgX86 "/out"
            ["node_modules/prisma/libquery_engine-foo-rhel.so.node"] := by
  exact ⟨rfl, by decide, by decide⟩

/-- Witness for the amended C7 theorem at the arm64 architecture with a
kept engine, a deleted engine and an unmatched file. -/
theorem c7_amended_pruner_keeps_exact_platform_stems_witness :
    lookupArch getArchitectures
      (getArchitecture { architecture := some "arm64" }) = some "linux-arm64"
    ∧ ((∀ f ∈ ["node_modules/prisma/libquery_engine-linux-arm64-openssl-1.1.x.so.node",
               "node_modules/prisma/libquery_engine-rhel-openssl-1.1.x.so.node",
               "README.md"],
          keptEngineFile "linux-arm64" f = true →
          pathJoin "/out" f ∉ deleteUnusedEngines { architecture := some "arm64" } "/out"
            ["node_modules/prisma/libquery_engine-linux-arm64-openssl-1.1.x.so.node",
             "node_modules/prisma/libquery_engine-rhel-openssl-1.1.x.so.node",
             "README.md"])
       ∧ (∀ f ∈ ["node_modules/prisma/libquery_engine-linux-arm64-openssl-1.1.x.so.node",
                 "node_modules/prisma/libquery_engine-rhel-openssl-1.1.x.so.node",
                 "README.md"],
          positiveEngineMatch f = true → keptEngineFile "linux-arm64" f = false →
          pathJoin "/out" f ∈ deleteUnusedEngines { architecture := some "arm64" } "/out"
            ["node_modules/prisma/libquery_engine-linux-arm64-openssl-1.1.x.so.node",
             "node_modules/prisma/libquery_engine-rhel-openssl-1.1.x.so.node",
             "README.md"])
       ∧ (globSyncModel (getPrismaEngines { architecture := some "arm64" })
            ["node_modules/prisma/libquery_engine-linux-arm64-openssl-1.1.x.so.node",
             "node_modules/prisma/libquery_engine-rhel-openssl-1.1.x.so.node",
             "README.md"] = [] →
          deleteUnusedEngines { architecture := some "arm64" } "/out"
            ["node_modules/prisma/libquery_engine-linux-arm64-openssl-1.1.x.so.node",
             "node_modules/prisma/libquery_engine-rhel-openssl-1.1.x.so.node",
             "README.md"] = [])) :=
  ⟨rfl,
   c7_amended_pruner_keeps_exact_platform_stems { architecture := some "arm64" } "/out"
     ["node_modules/prisma/libquery_engine-linux-arm64-openssl-1.1.x.so.node",
      "node_modules/prisma/libquery_engine-rhel-openssl-1.1.x.so.node",
      "README.md"] "linux-arm64" rfl⟩
